import Mathlib

/-!
Verification of the author-name sanitization engine of the `commonplace`
quotes repository (`author_sanitizer.py`, with the entity model from
`models.py` and the lookup contract from `db.py`).

Strings are modelled as `List Char`.  Python's regular expressions over the
fixed patterns of the source are embedded two ways:

* a small Brzozowski-derivative matcher (`RE`, `matchPre`, `fullMatch`,
  `reSearch`) for the boolean uses of `re.match` / `re.search`, with each
  pattern of the source transliterated into an `RE` value; and
* direct executable scanners for the three group-capturing operations
  (`re.sub` in `format_abbreviations`, the lazy/greedy captures in
  `clean_quotation_marks` and `format_title_case`), following Python's
  leftmost-match and greedy/lazy backtracking priorities.

Character classes (`[A-Z]`, `\d`, `\w`, `\s`, `str.upper` and friends) are
modelled over ASCII, which is the range exercised by the source's data and
the spec's examples.  File persistence (`save`/`load`/`export` JSON I/O),
console printing and the `datetime` clock are outside the embedding;
timestamps are passed in as an explicit `now` argument.
-/

/-- Model of the character class `[A-Z]` (also Python's `str.isupper` on one
ASCII character). -/
def isUpperA (c : Char) : Bool := 65 ≤ c.toNat && c.toNat ≤ 90

/-- Model of the character class `[a-z]`. -/
def isLowerA (c : Char) : Bool := 97 ≤ c.toNat && c.toNat ≤ 122

/-- Model of the character class `\d` (ASCII digits). -/
def isDigitA (c : Char) : Bool := 48 ≤ c.toNat && c.toNat ≤ 57

/-- Model of the character class `[A-Za-z]`. -/
def isAlphaA (c : Char) : Bool := isUpperA c || isLowerA c

/-- Model of the character class `\w` (ASCII word characters). -/
def isWordA (c : Char) : Bool := isAlphaA c || isDigitA c || c == '_'

/-- Model of the character class `\s` (ASCII whitespace: space, tab,
newline, carriage return, vertical tab, form feed). -/
def isSpaceA (c : Char) : Bool :=
  c == ' ' || c == '\t' || c == '\n' || c == '\r' || c.toNat == 11 || c.toNat == 12

/-- Python `str.lower` on one character (ASCII model). -/
def pyLowerC (c : Char) : Char := if isUpperA c then Char.ofNat (c.toNat + 32) else c

/-- Python `str.upper` on one character (ASCII model). -/
def pyUpperC (c : Char) : Char := if isLowerA c then Char.ofNat (c.toNat - 32) else c

/-- Number of occurrences of character `c`, Python `str.count` for a
one-character argument. -/
def countChar (c : Char) (cs : List Char) : Nat := (cs.filter (fun x => x == c)).length

/-- Python `str.strip()` (ASCII whitespace model). -/
def stripL (cs : List Char) : List Char :=
  ((cs.dropWhile isSpaceA).reverse.dropWhile isSpaceA).reverse

/-- Does `w` stand at the head of `cs`?  (Matching a literal at the current
position.) -/
def leadsWith : List Char → List Char → Bool
  | [], _ => true
  | _ :: _, [] => false
  | a :: as, b :: bs => a == b && leadsWith as bs

/-- Python's substring test `needle in hay`. -/
def containsSub : List Char → List Char → Bool
  | needle, [] => needle.isEmpty
  | needle, c :: rest => leadsWith needle (c :: rest) || containsSub needle rest

/-- Python `str.split()` with no argument: split on whitespace runs,
dropping empty pieces.  `acc` holds the current word reversed. -/
def pysplitGo : List Char → List Char → List (List Char)
  | acc, [] => if acc.isEmpty then [] else [acc.reverse]
  | acc, c :: rest =>
      if isSpaceA c then
        if acc.isEmpty then pysplitGo [] rest else acc.reverse :: pysplitGo [] rest
      else pysplitGo (c :: acc) rest

/-- Python `str.split()` with no argument. -/
def pysplit (cs : List Char) : List (List Char) := pysplitGo [] cs

/-- Python `str.capitalize()`: first character uppercased, the rest
lowercased (ASCII model). -/
def pyCapitalize : List Char → List Char
  | [] => []
  | c :: rest => pyUpperC c :: rest.map pyLowerC

/-- Python `str.lower()` (ASCII model). -/
def pyLowerStr (cs : List Char) : List Char := cs.map pyLowerC

/-- Python `str.isupper()`: at least one cased character and no lowercase
cased character (ASCII model of casedness). -/
def isupperPy (cs : List Char) : Bool :=
  cs.any (fun c => isAlphaA c) && !(cs.any (fun c => isLowerA c))

/-- Python `' '.join`. -/
def joinSpace : List (List Char) → List Char
  | [] => []
  | [w] => w
  | w :: ws => w ++ ' ' :: joinSpace ws

/-- Python `enumerate`-style map carrying the word index. -/
def mapWithIdx (f : Nat → List Char → List Char) : Nat → List (List Char) → List (List Char)
  | _, [] => []
  | i, w :: ws => f i w :: mapWithIdx f (i + 1) ws

/-! ### A Brzozowski-derivative regular-expression matcher

Used for every boolean `re.match` / `re.search` of the source.  `cls` holds
a decidable character predicate, so each character class of a source
pattern maps to one `cls`. -/

/-- Regular expressions over characters. -/
inductive RE where
  | fail
  | eps
  | cls (p : Char → Bool)
  | cat (r s : RE)
  | alt (r s : RE)
  | star (r : RE)

/-- Does `r` accept the empty string? -/
def reNull : RE → Bool
  | .fail => false
  | .eps => true
  | .cls _ => false
  | .cat r s => reNull r && reNull s
  | .alt r s => reNull r || reNull s
  | .star _ => true

/-- Smart concatenation (keeps derivatives small). -/
def mkCat : RE → RE → RE
  | .fail, _ => .fail
  | _, .fail => .fail
  | .eps, s => s
  | r, .eps => r
  | r, s => .cat r s

/-- Smart alternation (keeps derivatives small). -/
def mkAlt : RE → RE → RE
  | .fail, s => s
  | r, .fail => r
  | r, s => .alt r s

/-- Brzozowski derivative of `r` by the character `c`. -/
def reDeriv : RE → Char → RE
  | .fail, _ => .fail
  | .eps, _ => .fail
  | .cls p, c => if p c then .eps else .fail
  | .cat r s, c =>
      if reNull r then mkAlt (mkCat (reDeriv r c) s) (reDeriv s c)
      else mkCat (reDeriv r c) s
  | .alt r s, c => mkAlt (reDeriv r c) (reDeriv s c)
  | .star r, c => mkCat (reDeriv r c) (.star r)

/-- Does `r` accept all of `cs`? -/
def fullMatch (r : RE) (cs : List Char) : Bool := reNull (cs.foldl reDeriv r)

/-- Does `r` accept some prefix of `cs`?  This is Python's `re.match` for a
pattern with no trailing `$`. -/
def matchPre : RE → List Char → Bool
  | r, [] => reNull r
  | r, c :: cs => reNull r || matchPre (reDeriv r c) cs

/-- Does `r` accept a substring of `cs` starting anywhere?  This is
Python's `re.search` used as a boolean. -/
def reSearch : RE → List Char → Bool
  | r, [] => reNull r
  | r, c :: cs => matchPre r (c :: cs) || reSearch r cs

/-- Python's `re.match` for a pattern `^core$`: `$` matches at the end of
the string or just before one final newline. -/
def pyMatchDollar (r : RE) (cs : List Char) : Bool :=
  fullMatch r cs ||
    (match cs.getLast? with
     | some c => c == '\n' && fullMatch r cs.dropLast
     | none => false)

/-- One literal character as a regular expression. -/
def chrRE (c : Char) : RE := .cls (fun x => x == c)

/-- `r+`. -/
def plusRE (r : RE) : RE := .cat r (.star r)

/-- `r?`. -/
def optRE (r : RE) : RE := .alt r .eps

/-- A literal word as a regular expression. -/
def strRE (s : List Char) : RE := s.foldr (fun c acc => .cat (chrRE c) acc) .eps

/-- Alternation of a list of regular expressions, in order. -/
def altList : List RE → RE
  | [] => .fail
  | r :: rs => .alt r (altList rs)

/-! ### `NameValidator` (`author_sanitizer.py`)

Each entry of `NameValidator.PATTERNS` is transliterated below.  All five
source patterns are anchored as `^core$`, so classification uses
`pyMatchDollar`. -/

/-- The optional parenthetical suffix `(\s*\([^)]+\))?` shared by the first
four patterns (transliterated without the outer `?`, which is supplied by
`optRE` at the use sites). -/
def parenSuffixRE : RE :=
  .cat (.star (.cls isSpaceA))
    (.cat (chrRE '(') (.cat (plusRE (.cls (fun c => !(c == ')')))) (chrRE ')')))

/-- The group `[A-Z][a-z]+` (a capitalized word). -/
def upperWordRE : RE := .cat (.cls isUpperA) (plusRE (.cls isLowerA))

/-- Pattern `abbreviation`: `^([A-Z]\. )+[A-Z][a-z]+(\s*\([^)]+\))?$`. -/
def reAbbreviation : RE :=
  .cat (plusRE (.cat (.cls isUpperA) (.cat (chrRE '.') (chrRE ' '))))
    (.cat upperWordRE (optRE parenSuffixRE))

/-- Pattern `name_with_middle_initial`:
`^[A-Z][a-z]+\s+[A-Z]\.\s+[A-Z][a-z]+(\s*\([^)]+\))?$`. -/
def reNameWithMiddleInitial : RE :=
  .cat upperWordRE
    (.cat (plusRE (.cls isSpaceA))
      (.cat (.cls isUpperA)
        (.cat (chrRE '.')
          (.cat (plusRE (.cls isSpaceA)) (.cat upperWordRE (optRE parenSuffixRE))))))

/-- Pattern `full_name`: `^[A-Z][a-z]+(\s+[A-Z][a-z]+)+(\s*\([^)]+\))?$`. -/
def reFullName : RE :=
  .cat upperWordRE
    (.cat (plusRE (.cat (plusRE (.cls isSpaceA)) upperWordRE)) (optRE parenSuffixRE))

/-- The connector alternation `(And|The|A|An|Or|In|Of|With|By)` of the
`title` pattern. -/
def connectorAltRE : RE :=
  altList [strRE "And".data, strRE "The".data, strRE "A".data, strRE "An".data,
    strRE "Or".data, strRE "In".data, strRE "Of".data, strRE "With".data, strRE "By".data]

/-- Pattern `title`:
`^[A-Z][a-z]+(\s+(And|The|A|An|Or|In|Of|With|By)[a-z]+)*(\s*\([^)]+\))?$`. -/
def reTitle : RE :=
  .cat upperWordRE
    (.cat (.star (.cat (plusRE (.cls isSpaceA)) (.cat connectorAltRE (plusRE (.cls isLowerA)))))
      (optRE parenSuffixRE))

/-- Pattern `scripture`: `^\d+\s+[A-Z][a-z]+\s+\d+[:\d-]*(\s*\([A-Z]+\))?$`. -/
def reScripture : RE :=
  .cat (plusRE (.cls isDigitA))
    (.cat (plusRE (.cls isSpaceA))
      (.cat upperWordRE
        (.cat (plusRE (.cls isSpaceA))
          (.cat (plusRE (.cls isDigitA))
            (.cat (.star (.cls (fun c => c == ':' || isDigitA c || c == '-')))
              (optRE (.cat (.star (.cls isSpaceA))
                (.cat (chrRE '(') (.cat (plusRE (.cls isUpperA)) (chrRE ')'))))))))))

/-- `NameValidator.PATTERNS`: the five templates in the source's fixed
(dict-insertion) order. -/
def PATTERNS : List (String × RE) :=
  [("abbreviation", reAbbreviation),
   ("name_with_middle_initial", reNameWithMiddleInitial),
   ("full_name", reFullName),
   ("title", reTitle),
   ("scripture", reScripture)]

/-- The loop of `NameValidator.validate`: try templates in order, first
match wins. -/
def validateGo : List (String × RE) → List Char → Bool × String
  | [], _ => (false, "unknown")
  | (pn, p) :: rest, name => if pyMatchDollar p name then (true, pn) else validateGo rest name

/-- `NameValidator.validate(name) -> (is_valid, pattern_matched)`. -/
def validate (name : List Char) : Bool × String := validateGo PATTERNS name

/-- Modelled from the spec's words (§4.1 Name Classifier): "First matching
template wins; if none match, result is `(false, unknown)`."  Stated with
`List.find?` over the ordered template list, to be compared with the
source-derived `validate`. -/
def classifySpec (name : List Char) : Bool × String :=
  match PATTERNS.find? (fun pr => pyMatchDollar pr.2 name) with
  | some pr => (true, pr.1)
  | none => (false, "unknown")

example : validate "C. S. Lewis".data = (true, "abbreviation") := by decide
example : validate "John Michael Gottman".data = (true, "full_name") := by decide
example : validate "1 Kings 1:12-14 (NIV)".data = (true, "scripture") := by decide

/-! ### The fixed boolean patterns of `AuthorSanitizer` -/

/-- Pattern `[A-Z]\.[A-Z]\.` (unspaced abbreviation pair). -/
def reAbbrevNoSpace : RE :=
  .cat (.cls isUpperA) (.cat (chrRE '.') (.cat (.cls isUpperA) (chrRE '.')))

/-- Pattern `[A-Z]\. [A-Z]\.` (spaced abbreviation pair). -/
def reAbbrevSpaced : RE :=
  .cat (.cls isUpperA) (.cat (chrRE '.') (.cat (chrRE ' ') (.cat (.cls isUpperA) (chrRE '.'))))

/-- Pattern `[A-Z][a-z]*[A-Z]` (an internal capital transition). -/
def reInnerCapital : RE :=
  .cat (.cls isUpperA) (.cat (.star (.cls isLowerA)) (.cls isUpperA))

/-- Pattern `\(`. -/
def reOpenParen : RE := chrRE '('

/-- Pattern `^\d+` (used with `re.match`). -/
def reLeadingDigits : RE := plusRE (.cls isDigitA)

/-- Pattern `^\d+\s+[A-Za-z]+` (used with `re.match`). -/
def reDigitsSpaceLetters : RE :=
  .cat (plusRE (.cls isDigitA)) (.cat (plusRE (.cls isSpaceA)) (plusRE (.cls isAlphaA)))

/-- Pattern `^\d+\s+[A-Z]` (scripture test of `suggest_format`). -/
def reDigitsSpaceUpper : RE :=
  .cat (plusRE (.cls isDigitA)) (.cat (plusRE (.cls isSpaceA)) (.cls isUpperA))

/-- Pattern `^[A-Z]\.\s` (abbreviation-start test of `suggest_format`). -/
def reAbbrevLead : RE := .cat (.cls isUpperA) (.cat (chrRE '.') (.cls isSpaceA))

/-- Pattern `^\d+\s+[A-Za-z]+\s+\d+` (well-formedness test of
`format_scripture_reference`). -/
def reScriptureWellFormed : RE :=
  .cat (plusRE (.cls isDigitA))
    (.cat (plusRE (.cls isSpaceA))
      (.cat (plusRE (.cls isAlphaA)) (.cat (plusRE (.cls isSpaceA)) (plusRE (.cls isDigitA)))))

/-! ### The word-boundary search `\b(The|A|An|And|Or)\b`

The derivative matcher has no `\b`, so this one search is a direct scan.
Every alternative starts and ends with a word character, so the boundary
before holds exactly when the previous character is absent or not a word
character, and the boundary after holds exactly when the next character is
absent or not a word character. -/

/-- The alternatives of `\b(The|A|An|And|Or)\b`. -/
def connectorWords : List (List Char) :=
  ["The".data, "A".data, "An".data, "And".data, "Or".data]

/-- Does `w` occur at the head of `cs` with a word boundary after it? -/
def wordAtBoundary (w cs : List Char) : Bool :=
  leadsWith w cs &&
    (match cs.drop w.length with
     | [] => true
     | c :: _ => !(isWordA c))

/-- Scan for `\b(The|A|An|And|Or)\b`; `prevWord` records whether the
character before the current position is a word character. -/
def searchConnectorFrom : Bool → List Char → Bool
  | prevWord, [] => !prevWord && connectorWords.any (fun w => wordAtBoundary w [])
  | prevWord, c :: rest =>
      (!prevWord && connectorWords.any (fun w => wordAtBoundary w (c :: rest)))
        || searchConnectorFrom (isWordA c) rest

/-- Boolean `re.search(r'\b(The|A|An|And|Or)\b', name)`. -/
def searchConnector (cs : List Char) : Bool := searchConnectorFrom false cs

/-! ### `AuthorSanitizer.clean_quotation_marks`

`re.search(r'(\w+)\s+"{2,}(.+?)"{2,}\s+(\w+)', name)`, with Python's
leftmost-position rule and backtracking priorities: the greedy `(\w+)` and
`\s+` runs are forced maximal by the disjoint classes that follow them; the
first `"{2,}` is tried from the full quote run down to two; the lazy
`(.+?)` grows from one character; the second `"{2,}` and the final `\s+`
are again forced maximal. -/

/-- Can the pattern close here: `"{2,}\s+(\w+)` at the head of `rest`?
Returns the final word group on success. -/
def quoteCloses (rest : List Char) : Option (List Char) :=
  let q := rest.takeWhile (fun c => c == '"')
  if q.length < 2 then none
  else
    let r1 := rest.drop q.length
    let s := r1.takeWhile isSpaceA
    if s.isEmpty then none
    else
      let r2 := r1.drop s.length
      let w := r2.takeWhile isWordA
      if w.isEmpty then none else some w

/-- Grow the lazy `(.+?)` group one character at a time (shortest first);
`acc` is the reversed content so far.  The dot does not match a newline. -/
def quoteContentGo : List Char → List Char → Option (List Char × List Char)
  | _, [] => none
  | acc, c :: rest =>
      if c == '\n' then none
      else
        match quoteCloses rest with
        | some w => some ((c :: acc).reverse, w)
        | none => quoteContentGo (c :: acc) rest

/-- Try the opening `"{2,}` group greedily: `k` quotes first, then fewer,
never fewer than two.  Quotes of the run not consumed by the group become
the first characters available to the lazy content group. -/
def quoteTryOpenRun : Nat → List Char → List Char → Option (List Char × List Char)
  | 0, _, _ => none
  | 1, _, _ => none
  | k + 2, qrun, rest =>
      match quoteContentGo [] (qrun.drop (k + 2) ++ rest) with
      | some r => some r
      | none => quoteTryOpenRun (k + 1) qrun rest

/-- Match `(\w+)\s+"{2,}(.+?)"{2,}\s+(\w+)` starting exactly at `cs`,
returning the three groups. -/
def matchQuoteGarbageAt (cs : List Char) : Option (List Char × List Char × List Char) :=
  let w := cs.takeWhile isWordA
  if w.isEmpty then none
  else
    let r1 := cs.drop w.length
    let s := r1.takeWhile isSpaceA
    if s.isEmpty then none
    else
      let r2 := r1.drop s.length
      let q := r2.takeWhile (fun c => c == '"')
      if q.length < 2 then none
      else
        match quoteTryOpenRun q.length q (r2.drop q.length) with
        | some (content, after) => some (w, content, after)
        | none => none

/-- The leftmost position (if any) where the quote-garbage pattern
matches. -/
def searchQuoteGarbage : List Char → Option (List Char × List Char × List Char)
  | [] => none
  | c :: rest =>
      match matchQuoteGarbageAt (c :: rest) with
      | some g => some g
      | none => searchQuoteGarbage rest

/-- `AuthorSanitizer.clean_quotation_marks`: on a match, rewrite to
`"{before} {after} ({content.strip()})"`; otherwise remove every `"`. -/
def clean_quotation_marks (name : List Char) : List Char :=
  match searchQuoteGarbage name with
  | some (before, content, after) =>
      before ++ ' ' :: after ++ ' ' :: '(' :: stripL content ++ [')']
  | none => name.filter (fun c => !(c == '"'))

example :
    clean_quotation_marks "ab \"\"\"x\"y\"\"\" cd".data = "ab cd (x\"y)".data := by decide

/-! ### `AuthorSanitizer.format_abbreviations`

`re.sub` scans left to right, replaces each non-overlapping match and
resumes after it.  Both substitutions are embedded as fuel-indexed scans
(the fuel, initially the string length, only makes the recursion
structural; it never runs out). -/

/-- First substitution: `re.sub(r'([A-Z])\.([A-Z])\.', r'\1. \2.', name)`. -/
def subAbbrevGo : Nat → List Char → List Char
  | 0, cs => cs
  | n + 1, cs =>
      match cs with
      | [] => []
      | a :: rest =>
          match rest with
          | p :: b :: q :: rest2 =>
              if isUpperA a && p == '.' && isUpperA b && q == '.' then
                a :: '.' :: ' ' :: b :: '.' :: subAbbrevGo n rest2
              else a :: subAbbrevGo n rest
          | _ => a :: subAbbrevGo n rest

/-- Second substitution: `re.sub(r'([A-Z]\.) ([A-Z]\.)', r'\1 \2', name)`.
The replacement text equals the matched text, so this scan is an identity
(proved below as `subAbbrevSpaceGo_eq`). -/
def subAbbrevSpaceGo : Nat → List Char → List Char
  | 0, cs => cs
  | n + 1, cs =>
      match cs with
      | [] => []
      | a :: rest =>
          match rest with
          | p :: s :: b :: q :: rest2 =>
              if isUpperA a && p == '.' && s == ' ' && isUpperA b && q == '.' then
                a :: '.' :: ' ' :: b :: '.' :: subAbbrevSpaceGo n rest2
              else a :: subAbbrevSpaceGo n rest
          | _ => a :: subAbbrevSpaceGo n rest

/-- `AuthorSanitizer.format_abbreviations`: the two substitutions, then
`str.strip()`. -/
def format_abbreviations (name : List Char) : List Char :=
  let name1 := subAbbrevGo name.length name
  let name2 := subAbbrevSpaceGo name1.length name1
  stripL name2

/-! ### `AuthorSanitizer.format_title_case`

`re.match(r'^(.*?)(\(.+\))$', name)`: the lazy `(.*?)` stops at the first
position whose remainder matches `\(.+\)$`; neither dot matches a newline;
the trailing `$` may sit before one final newline.  Inside the remainder
the only admissible closing parentheses are the last character, or the
second-to-last when the last is a newline, so the greedy `.+` needs no
further backtracking. -/

/-- Try to match `\(.+\)$` against all of `rest`; returns group 2. -/
def tryParenTail (rest : List Char) : Option (List Char) :=
  match rest with
  | '(' :: body =>
      match body.getLast? with
      | some ')' =>
          let mid := body.dropLast
          if !mid.isEmpty && !(mid.contains '\n') then some ('(' :: body) else none
      | some c =>
          if c == '\n' then
            let t := body.dropLast
            match t.getLast? with
            | some ')' =>
                let mid := t.dropLast
                if !mid.isEmpty && !(mid.contains '\n') then some ('(' :: t) else none
            | _ => none
          else none
      | none => none
  | _ => none

/-- Scan for the lazy split: `acc` holds the reversed group-1 candidate;
group 1 cannot cross a newline. -/
def parenMatchGo : List Char → List Char → Option (List Char × List Char)
  | acc, [] =>
      (match tryParenTail [] with
       | some g2 => some (acc.reverse, g2)
       | none => none)
  | acc, c :: rest =>
      match tryParenTail (c :: rest) with
      | some g2 => some (acc.reverse, g2)
      | none => if c == '\n' then none else parenMatchGo (c :: acc) rest

/-- `re.match(r'^(.*?)(\(.+\))$', name)`, returning `(group 1, group 2)`. -/
def parenMatch (cs : List Char) : Option (List Char × List Char) := parenMatchGo [] cs

/-- The words that stay lowercase in titles (unless in first position). -/
def lowercase_words : List (List Char) :=
  ["a".data, "an".data, "the".data, "and".data, "or".data, "but".data, "in".data,
   "on".data, "at".data, "to".data, "for".data, "of".data, "with".data, "by".data]

/-- The per-word transform of `format_title_case`: capitalize, except a
non-leading connector word, which is lowercased. -/
def transformWord (i : Nat) (w : List Char) : List Char :=
  if i == 0 || !(lowercase_words.contains (pyLowerStr w)) then pyCapitalize w
  else pyLowerStr w

/-- `AuthorSanitizer.format_title_case`: detach a trailing parenthetical,
title-case the remaining words, reattach the parenthetical verbatim. -/
def format_title_case (name : List Char) : List Char :=
  let pm := parenMatch name
  let nm := match pm with | some (g1, _) => stripL g1 | none => name
  let preserve_paren : Option (List Char) :=
    match pm with | some (_, g2) => some g2 | none => none
  let words := pysplit nm
  let result := mapWithIdx transformWord 0 words
  let final := joinSpace result
  match preserve_paren with
  | some p => if p.isEmpty then final else final ++ ' ' :: p
  | none => final

/-- `AuthorSanitizer.format_scripture_reference`: both branches return the
name unchanged. -/
def format_scripture_reference (name : List Char) : List Char :=
  if matchPre reScriptureWellFormed name then name else name

/-- The title-likeness disjunction of `suggest_format`. -/
def is_title_heuristic (name : List Char) : Bool :=
  isupperPy name || searchConnector name || containsSub (':' :: [' ']) name ||
    (decide (countChar ' ' name > 2) && decide ((name.filter (fun c => isUpperA c)).length > 2))

/-- `AuthorSanitizer.suggest_format`. -/
def suggest_format (name : List Char) : List Char :=
  let name :=
    if containsSub ['"', '"', '"'] name || containsSub ['"', '"', '"', '"'] name then
      clean_quotation_marks name
    else name
  if matchPre reDigitsSpaceUpper name then format_scripture_reference name
  else if is_title_heuristic name && !(matchPre reAbbrevLead name) then format_title_case name
  else format_abbreviations name

example : suggest_format "W.X.Y.Z. ab".data = "W. X.Y. Z. ab".data := by decide
example : suggest_format "W. X.Y. Z. ab".data = "W. X. Y. Z. ab".data := by decide
example : suggest_format "   (ABCd)".data = " (ABCd)".data := by decide
example : suggest_format " (ABCd)".data = "(ABCd)".data := by decide
example : suggest_format "aB.C. DE fg".data = "aB. C. DE fg".data := by decide
example : suggest_format "aB. C. DE fg".data = "Ab. C. De Fg".data := by decide
example : suggest_format "ab \"\"\"x\"y\"\"\" cd".data = "ab cd (x\"y)".data := by decide
example : suggest_format "THE BOOK (NIV)".data = "The Book (NIV)".data := by decide
example : suggest_format "THE NIV BIBLE".data = "The Niv Bible".data := by decide
example : suggest_format "C. S. Lewis".data = "C. S. Lewis".data := by decide

/-! ### `NameWhitelist` and `NameBlacklist`

The JSON persistence (`load`/`save`/`export`) and the display-only
metadata/timestamps are I/O and are outside the embedding; the state that
the checks read is kept.  Python sets are modelled as duplicate-free
insertion lists with membership-guarded insertion.

Arbitrary user regexes reach `NameBlacklist.is_blacklisted` through
`re.search(pattern, name)` inside `try/except`.  That call is modelled by
an oracle `rs : String → String → Except Unit Bool`: `.error ()` is a raised
`re.error` (an invalid pattern), `.ok b` a successful search with boolean
outcome `b`. -/

/-- The in-memory state of `NameWhitelist`. -/
structure Whitelist where
  names : List String
deriving DecidableEq

/-- `NameWhitelist.is_whitelisted`. -/
def Whitelist.is_whitelisted (wl : Whitelist) (name : String) : Bool :=
  wl.names.contains name

/-- `NameWhitelist.add` (set insertion; the notes metadata is display-only
and not modelled). -/
def Whitelist.add (wl : Whitelist) (name : String) (notes : String) : Whitelist :=
  {names := if wl.names.contains name then wl.names else wl.names ++ [name]}

/-- One entry of `NameBlacklist.patterns`; `reason` is optional because
entries loaded from JSON may lack the key (`item.get('reason', ...)`). -/
structure PatternEntry where
  pattern : String
  reason : Option String
deriving DecidableEq

/-- The in-memory state of `NameBlacklist`. -/
structure Blacklist where
  patterns : List PatternEntry
  exact_names : List String
deriving DecidableEq

/-- `NameBlacklist.add_pattern`: append without any validation of the
pattern string. -/
def Blacklist.add_pattern (bl : Blacklist) (pattern : String) (reason : String) : Blacklist :=
  {bl with patterns := bl.patterns ++ [{pattern := pattern, reason := some reason}]}

/-- `NameBlacklist.add_exact` (the `reason` argument is accepted and
ignored by the source). -/
def Blacklist.add_exact (bl : Blacklist) (name : String) (reason : String) : Blacklist :=
  {bl with exact_names :=
    if bl.exact_names.contains name then bl.exact_names else bl.exact_names ++ [name]}

/-- The pattern loop of `is_blacklisted`: `re.search` inside `try/except`;
a raised `re.error` (`.error ()`) and a failed search (`.ok false`) both
fall through to the next entry. -/
def patternsCheck (rs : String → String → Except Unit Bool) :
    List PatternEntry → String → Bool × String
  | [], _ => (false, "")
  | item :: rest, name =>
      match rs item.pattern name with
      | .ok true => (true, item.reason.getD "matched pattern")
      | _ => patternsCheck rs rest name

/-- `NameBlacklist.is_blacklisted(name) -> (is_blacklisted, reason)`. -/
def Blacklist.is_blacklisted (rs : String → String → Except Unit Bool)
    (bl : Blacklist) (name : String) : Bool × String :=
  if bl.exact_names.contains name then (true, "exact match in blacklist")
  else patternsCheck rs bl.patterns name

/-- `AuthorSanitizer.is_likely_garbage(name) -> (is_garbage, issues)`. -/
def is_likely_garbage (rs : String → String → Except Unit Bool)
    (wl : Whitelist) (bl : Blacklist) (name : String) : Bool × List String :=
  let cs := name.data
  let issues : List String := []
  let blRes := bl.is_blacklisted rs name
  let issues := if blRes.1 then issues ++ ["blacklist match (" ++ blRes.2 ++ ")"] else issues
  if wl.is_whitelisted name then (false, [])
  else
    let issues :=
      if countChar '"' cs > 2 then
        issues ++ ["excessive quotes (" ++ toString (countChar '"' cs) ++ " found)"]
      else issues
    let issues :=
      if reSearch reAbbrevNoSpace cs && !(reSearch reAbbrevSpaced cs) then
        issues ++ ["improper abbreviation spacing"]
      else issues
    let issues :=
      if reSearch reInnerCapital cs && !(reSearch reOpenParen cs) then
        issues ++ ["unusual capitalization"]
      else issues
    let issues :=
      if matchPre reLeadingDigits cs && !(matchPre reDigitsSpaceLetters cs) then
        issues ++ ["possible malformed scripture reference"]
      else issues
    let issues := if countChar '.' cs > 4 then issues ++ ["excessive periods"] else issues
    let issues := if !(validate cs).1 then issues ++ ["doesn't match standard patterns"] else issues
    (issues.length > 0, issues)

/-! ### The change ledger (`ChangeLog`) -/

/-- One record of the change ledger. -/
structure ChangeRec where
  timestamp : String
  type : String
  author_id : Int
  old_name : String
  new_name : String
  merged_with : Option String
deriving DecidableEq

/-- The in-memory state of `ChangeLog` (the backing JSON file is I/O and
outside the embedding; `save` is called by `add` before it returns). -/
structure ChangeLog where
  changes : List ChangeRec
deriving DecidableEq

/-- `ChangeLog.add`: build the record (defaulting the timestamp to the
clock value `now`) and append it. -/
def ChangeLog.add (log : ChangeLog) (change_type : String) (author_id : Int)
    (old_name new_name : String) (merged_with : Option String)
    (timestamp : Option String) (now : String) : ChangeLog :=
  {changes := log.changes ++
    [{timestamp := timestamp.getD now, type := change_type, author_id := author_id,
      old_name := old_name, new_name := new_name, merged_with := merged_with}]}

/-- Python's suffix slice `lst[-count:]` for a non-negative `count`: the
start index resolves to `0` when `count = 0` (since `-0 == 0`) and to
`max(0, len - count)` otherwise. -/
def pySliceSuffix {α : Type} (l : List α) (count : Nat) : List α :=
  if count == 0 then l else l.drop (l.length - count)

/-- `ChangeLog.get_latest(count)` = `self.changes[-count:]`. -/
def ChangeLog.get_latest (log : ChangeLog) (count : Nat) : List ChangeRec :=
  pySliceSuffix log.changes count

/-- `ChangeLog.get_by_type`. -/
def ChangeLog.get_by_type (log : ChangeLog) (change_type : String) : List ChangeRec :=
  log.changes.filter (fun c => c.type == change_type)

/-- `ChangeLog.export`: the payload written to the export file
(`total_changes` and the records; the file write itself is I/O). -/
def ChangeLog.exportPayload (log : ChangeLog) : Nat × List ChangeRec :=
  (log.changes.length, log.changes)

/-! ### The entity model and storage (`models.py`, `db.py`)

`Author` rows carry a name, the needs-review flag `edit`, and their quotes
(`models.py`); storage is the author table of the ORM session, modelled as
a list of rows.  `session.delete` removes a row; `commit` is a no-op in the
embedding because the state is already explicit. -/

/-- A quote row (the fields the sanitizer touches). -/
structure MQuote where
  id : Int
  text : String
deriving DecidableEq

/-- An author row: `models.py` `Author` with its `edit` flag and quotes. -/
structure MAuthor where
  id : Int
  name : String
  edit : Bool
  quotes : List MQuote
deriving DecidableEq

/-- `AuthorManager.get_by_name` (`db.py`): raises `ValidationError` on an
empty name, otherwise returns the first row with that exact name. -/
def get_by_name (authors : List MAuthor) (name : String) : Except String (Option MAuthor) :=
  if name == "" then .error "Author name must be a non-empty string"
  else .ok (authors.find? (fun a => a.name == name))

/-- The state the `AuthorSanitizer` instance mutates: the author table plus
its changelog, whitelist, blacklist and the session bookkeeping lists. -/
structure SanState where
  authors : List MAuthor
  changelog : ChangeLog
  whitelist : Whitelist
  blacklist : Blacklist
  changes_made : List String
  skipped : List String
deriving DecidableEq

/-- `AuthorSanitizer.merge_authors`: reassign every quote of `from_author`
to `to_author`, delete the `from_author` row, then log the merge. -/
def merge_authors (st : SanState) (from_author to_author : MAuthor) (now : String) : SanState :=
  let authors := st.authors.map (fun a =>
    if a.id == to_author.id then {a with quotes := a.quotes ++ from_author.quotes}
    else if a.id == from_author.id then {a with quotes := []}
    else a)
  let authors := authors.filter (fun a => !(a.id == from_author.id))
  {st with authors := authors,
           changelog := st.changelog.add "MERGED" from_author.id from_author.name
             to_author.name (some to_author.name) none now}

/-- `AuthorSanitizer._apply_change`: strip the new name; a no-op when it
equals the current name; on a collision with a different row, merge after
confirmation (or cancel); otherwise rename and clear the edit flag.  The
`.error` case propagates the `ValidationError` of `get_by_name` on an
empty stripped name. -/
def apply_change (st : SanState) (author : MAuthor) (new_name : String)
    (merge_confirm : Bool) (now : String) : Except String SanState :=
  let new_name := String.mk (stripL new_name.data)
  if new_name == author.name then .ok st
  else
    match get_by_name st.authors new_name with
    | .error e => .error e
    | .ok existing =>
        let doMerge :=
          match existing with
          | some e => !(e.id == author.id)
          | none => false
        if doMerge then
          match existing with
          | some e =>
              if merge_confirm then
                let st1 := merge_authors st author e now
                .ok {st1 with changes_made := st1.changes_made ++
                  ["MERGED: '" ++ author.name ++ "' -> '" ++ new_name ++ "'"]}
              else .ok st
          | none => .ok st
        else
          .ok {st with
            authors := st.authors.map (fun a =>
              if a.id == author.id then {a with name := new_name, edit := false} else a),
            changelog := st.changelog.add "RENAMED" author.id author.name new_name none none now,
            changes_made := st.changes_made ++
              ["RENAMED: '" ++ author.name ++ "' -> '" ++ new_name ++ "'"]}

/-- One valid decision of the per-author menu of
`AuthorSanitizer.process_author`. -/
inductive ReviewAction where
  | keep
  | accept_suggestion
  | manual_edit (new_name : String)
  | add_to_whitelist
  | add_to_blacklist (reason : String) (delete_confirm : Bool)
  | delete_author (confirm : Bool)
  | skip_author
deriving DecidableEq

/-- `AuthorSanitizer.process_author` for one valid decision.  Invalid menu
input re-prompts without touching state, as do the guarded branches that
loop (`[2]` when no suggestion differs, `[3]` with an empty name, `[6]`
declined), so those cases return the state unchanged. -/
def process_author (st : SanState) (author : MAuthor) (act : ReviewAction)
    (merge_confirm : Bool) (now : String) : Except String SanState :=
  let suggestion := String.mk (suggest_format author.name.data)
  match act with
  | .keep => .ok {st with skipped := st.skipped ++ [author.name]}
  | .accept_suggestion =>
      if !(suggestion == author.name) then apply_change st author suggestion merge_confirm now
      else .ok st
  | .manual_edit new_name =>
      let nn := String.mk (stripL new_name.data)
      if !(nn == "") then apply_change st author nn merge_confirm now
      else .ok st
  | .add_to_whitelist =>
      .ok {st with
        whitelist := st.whitelist.add author.name "User approved during sanitization",
        skipped := st.skipped ++ [author.name]}
  | .add_to_blacklist reason delete_confirm =>
      let reason := String.mk (stripL reason.data)
      let bl1 := st.blacklist.add_exact author.name
        (if reason == "" then "Garbage/spam author" else reason)
      let st1 := {st with blacklist := bl1}
      if delete_confirm then
        .ok {st1 with
          authors := st1.authors.filter (fun a => !(a.id == author.id)),
          changes_made := st1.changes_made ++ ["DELETED: " ++ author.name]}
      else .ok st1
  | .delete_author confirm =>
      if confirm then
        .ok {st with
          authors := st.authors.filter (fun a => !(a.id == author.id)),
          changes_made := st.changes_made ++ ["DELETED: " ++ author.name],
          changelog := st.changelog.add "DELETED" author.id author.name "" none none now}
      else .ok st
  | .skip_author => .ok {st with skipped := st.skipped ++ [author.name]}

/-! ### Claims -/

/-- Claim C1: for every name present on the allow-list, `is_likely_garbage`
returns `(false, [])`, regardless of deny-list membership, quote counts,
abbreviation spacing, capitalization, scripture shape, period counts, or
classifier validity — the allow-list overrides every other signal. -/
theorem C1_whitelist_overrides_everything (rs : String → String → Except Unit Bool)
    (wl : Whitelist) (bl : Blacklist) (name : String)
    (h : wl.is_whitelisted name = true) :
    is_likely_garbage rs wl bl name = (false, []) := by
  simp only [is_likely_garbage, h, if_true]

theorem C1_whitelist_overrides_everything_witness :
    (Whitelist.mk ["\"\"\"\"\"Odd\"\"\"\"\"  Name\"\"\""]).is_whitelisted
        "\"\"\"\"\"Odd\"\"\"\"\"  Name\"\"\"" = true ∧
    is_likely_garbage (fun _ _ => .ok true)
        (Whitelist.mk ["\"\"\"\"\"Odd\"\"\"\"\"  Name\"\"\""])
        (Blacklist.mk [{pattern := "bad", reason := some "why"}] ["\"\"\"\"\"Odd\"\"\"\"\"  Name\"\"\""])
        "\"\"\"\"\"Odd\"\"\"\"\"  Name\"\"\"" = (false, []) :=
  ⟨by decide,
   C1_whitelist_overrides_everything (fun _ _ => .ok true) _ _ _ (by decide)⟩

/-- Claim C2: the classifier tries the five anchored templates in the fixed
order abbreviation, name-with-middle-initial, full-name, title, scripture,
returns `(true, id)` for the first matching template and `(false, unknown)`
when none match (`classifySpec` states this first-match contract with
`List.find?`), and on the four spec examples it returns the stated
results. -/
theorem C2_classifier_first_match_wins :
    (∀ name : List Char, validate name = classifySpec name) ∧
    validate "C. S. Lewis".data = (true, "abbreviation") ∧
    validate "John Michael Gottman".data = (true, "full_name") ∧
    validate "1 Kings 1:12-14 (NIV)".data = (true, "scripture") ∧
    validate "random$$$garbage".data = (false, "unknown") := by
  refine ⟨fun name => ?_, by decide, by decide, by decide, by decide⟩
  show validateGo PATTERNS name = classifySpec name
  unfold classifySpec
  induction PATTERNS with
  | nil => rfl
  | cons hd tl ih =>
      obtain ⟨pn, p⟩ := hd
      by_cases h : pyMatchDollar p name = true
      · simp [validateGo, h, List.find?_cons_of_pos]
      · rw [validateGo]
        simp only [h, if_false]
        rw [List.find?_cons_of_neg _ (by simpa using h)]
        exact ih

/-- Claim C5 counterexample: `get_latest 0` evaluates `changes[-0:]`, i.e.
`changes[0:]`, so it returns every record instead of none on a two-record
ledger. -/
theorem C5_get_latest_zero_counterexample :
    (ChangeLog.mk
        [{timestamp := "t1", type := "RENAMED", author_id := 1,
          old_name := "a", new_name := "b", merged_with := none},
         {timestamp := "t2", type := "DELETED", author_id := 2,
          old_name := "c", new_name := "", merged_with := none}]).get_latest 0 =
      [{timestamp := "t1", type := "RENAMED", author_id := 1,
        old_name := "a", new_name := "b", merged_with := none},
       {timestamp := "t2", type := "DELETED", author_id := 2,
        old_name := "c", new_name := "", merged_with := none}] ∧
    ([{timestamp := "t1", type := "RENAMED", author_id := 1,
       old_name := "a", new_name := "b", merged_with := none},
      {timestamp := "t2", type := "DELETED", author_id := 2,
       old_name := "c", new_name := "", merged_with := none}] : List ChangeRec) ≠ [] := by
  decide

/-- Claim C5 (amended): for every ledger state, `get_latest n` returns
exactly the last `min n total` records in insertion order for every
requested count `n ≥ 1`, while `get_latest 0` returns all records (Python
`changes[-0:]` is the full list), not none. -/
theorem C5_get_latest_amended (log : ChangeLog) (count : Nat) (h : 1 ≤ count) :
    log.get_latest count = log.changes.drop (log.changes.length - count) ∧
    (log.get_latest count).length = min count log.changes.length ∧
    log.get_latest 0 = log.changes := by
  have hc : (count == 0) = false := by simpa using Nat.pos_iff_ne_zero.mp h
  refine ⟨?_, ?_, ?_⟩
  · simp [ChangeLog.get_latest, pySliceSuffix, hc]
  · simp only [ChangeLog.get_latest, pySliceSuffix, hc, Bool.false_eq_true, if_false,
      List.length_drop]
    omega
  · simp [ChangeLog.get_latest, pySliceSuffix]

theorem C5_get_latest_amended_witness :
    1 ≤ 2 ∧
    ((ChangeLog.mk
        [{timestamp := "t1", type := "RENAMED", author_id := 1,
          old_name := "a", new_name := "b", merged_with := none},
         {timestamp := "t2", type := "MERGED", author_id := 2,
          old_name := "c", new_name := "d", merged_with := some "d"},
         {timestamp := "t3", type := "DELETED", author_id := 3,
          old_name := "e", new_name := "", merged_with := none}]).get_latest 2 =
      [{timestamp := "t2", type := "MERGED", author_id := 2,
        old_name := "c", new_name := "d", merged_with := some "d"},
       {timestamp := "t3", type := "DELETED", author_id := 3,
        old_name := "e", new_name := "", merged_with := none}]) :=
  ⟨by decide,
   ((C5_get_latest_amended
      (ChangeLog.mk
        [{timestamp := "t1", type := "RENAMED", author_id := 1,
          old_name := "a", new_name := "b", merged_with := none},
         {timestamp := "t2", type := "MERGED", author_id := 2,
          old_name := "c", new_name := "d", merged_with := some "d"},
         {timestamp := "t3", type := "DELETED", author_id := 3,
          old_name := "e", new_name := "", merged_with := none}]) 2 (by decide)).1).trans
    (by decide)⟩

/-- Claim C7: the change ledger is append-only — `add` leaves every
previously recorded record unmodified and in place as a prefix of the
record list and appends exactly one new record at the end (the reading
operations `get_latest`, `get_by_type` and `exportPayload` are pure
observers of the record list and return no modified ledger). -/
theorem C7_ledger_append_only (log : ChangeLog) (change_type : String) (author_id : Int)
    (old_name new_name : String) (merged_with : Option String)
    (timestamp : Option String) (now : String) :
    (log.add change_type author_id old_name new_name merged_with timestamp now).changes.take
        log.changes.length = log.changes ∧
    (log.add change_type author_id old_name new_name merged_with timestamp now).changes.drop
        log.changes.length =
      [{timestamp := timestamp.getD now, type := change_type, author_id := author_id,
        old_name := old_name, new_name := new_name, merged_with := merged_with}] ∧
    (log.add change_type author_id old_name new_name merged_with timestamp now).changes.length =
      log.changes.length + 1 := by
  refine ⟨?_, ?_, ?_⟩
  · simpa [ChangeLog.add] using List.take_left log.changes _
  · simpa [ChangeLog.add] using List.drop_left log.changes _
  · simp [ChangeLog.add]

/-- The pattern loop of `is_blacklisted` reports the first entry, in
insertion order, whose oracle search succeeds with a match; raising entries
(invalid regexes) and non-matching entries are skipped. -/
theorem patternsCheck_eq_find (rs : String → String → Except Unit Bool)
    (l : List PatternEntry) (name : String) :
    patternsCheck rs l name =
      match l.find? (fun it =>
          match rs it.pattern name with | .ok true => true | _ => false) with
      | some it => (true, it.reason.getD "matched pattern")
      | none => (false, "") := by
  induction l with
  | nil => rfl
  | cons hd tl ih =>
      rcases hr : rs hd.pattern name with e | b
      · rw [patternsCheck, hr, List.find?_cons_of_neg _ (by simp [hr])]
        exact ih
      · cases b
        · rw [patternsCheck, hr, List.find?_cons_of_neg _ (by simp [hr])]
          exact ih
        · rw [patternsCheck, hr, List.find?_cons_of_pos _ (by simp [hr])]

/-- Claim C8: deny-list checking is total and fail-open — `add_pattern`
appends any pattern string without validating it as a regex, and
`is_blacklisted` (for a name with no exact match) treats a pattern whose
search raises as non-matching and reports the reason of the first valid
matching pattern in insertion order.  The `rs` oracle models
`re.search(pattern, name)`: `.error ()` is a raised `re.error`, `.ok b` a
successful search. -/
theorem C8_blacklist_fail_open (rs : String → String → Except Unit Bool)
    (bl : Blacklist) (name pattern reason : String)
    (h : bl.exact_names.contains name = false) :
    (bl.add_pattern pattern reason).patterns =
      bl.patterns ++ [{pattern := pattern, reason := some reason}] ∧
    bl.is_blacklisted rs name =
      (match bl.patterns.find? (fun it =>
          match rs it.pattern name with | .ok true => true | _ => false) with
       | some it => (true, it.reason.getD "matched pattern")
       | none => (false, "")) := by
  constructor
  · rfl
  · rw [Blacklist.is_blacklisted, h]
    simp only [Bool.false_eq_true, if_false]
    exact patternsCheck_eq_find rs bl.patterns name

theorem C8_blacklist_fail_open_witness :
    (Blacklist.mk
        [{pattern := "(", reason := some "broken entry"},
         {pattern := "valid", reason := some "the real reason"},
         {pattern := "later", reason := some "too late"}]
        ["Someone Else"]).exact_names.contains "Any Name" = false ∧
    (Blacklist.mk
        [{pattern := "(", reason := some "broken entry"},
         {pattern := "valid", reason := some "the real reason"},
         {pattern := "later", reason := some "too late"}]
        ["Someone Else"]).is_blacklisted
      (fun p _ => if p == "(" then .error () else .ok true) "Any Name" =
      (true, "the real reason") :=
  ⟨by decide,
   ((C8_blacklist_fail_open (fun p _ => if p == "(" then .error () else .ok true)
      (Blacklist.mk
        [{pattern := "(", reason := some "broken entry"},
         {pattern := "valid", reason := some "the real reason"},
         {pattern := "later", reason := some "too late"}]
        ["Someone Else"]) "Any Name" "x" "y" (by decide)).2).trans (by decide)⟩

/-- Claim C6: after `merge_authors` completes, every quote formerly owned
by the from-author is owned by the to-author, the from-author row no longer
exists in storage, and an exact-name lookup of the old name reports the
author as absent (`.ok none` from `get_by_name`).  The hypotheses say the
two rows are present and distinct, author names are unique (the `unique`
constraint of `models.py`), and the old name is non-empty (else
`get_by_name` raises its `ValidationError`). -/
theorem C6_merge_moves_quotes_and_removes_source (st : SanState)
    (from_author to_author : MAuthor) (now : String)
    (hfrom : from_author ∈ st.authors) (hto : to_author ∈ st.authors)
    (hid : from_author.id ≠ to_author.id)
    (hnames : (st.authors.map (fun a => a.name)).Nodup)
    (hname : from_author.name ≠ "") :
    (∃ a ∈ (merge_authors st from_author to_author now).authors,
        a.id = to_author.id ∧ a.quotes = to_author.quotes ++ from_author.quotes) ∧
    (∀ a ∈ (merge_authors st from_author to_author now).authors, a.id ≠ from_author.id) ∧
    get_by_name (merge_authors st from_author to_author now).authors from_author.name =
      .ok none := by
  have hinj := List.inj_on_of_nodup_map hnames
  refine ⟨?_, ?_, ?_⟩
  · refine ⟨{to_author with quotes := to_author.quotes ++ from_author.quotes}, ?_, rfl, rfl⟩
    simp only [merge_authors, List.mem_filter, List.mem_map]
    constructor
    · exact ⟨to_author, hto, by simp⟩
    · simp [Ne.symm hid]
  · intro a ha
    simp only [merge_authors, List.mem_filter] at ha
    simpa using ha.2
  · have hbeq : (from_author.name == "") = false := by
      simpa using hname
    rw [get_by_name, hbeq]
    simp only [Bool.false_eq_true, if_false, Except.ok.injEq]
    rw [List.find?_eq_none]
    rintro a ha
    simp only [merge_authors, List.mem_filter, List.mem_map] at ha
    obtain ⟨⟨a0, ha0, rfl⟩, hkeep⟩ := ha
    have hid0 : a0.id ≠ from_author.id := by
      by_cases h1 : (a0.id == to_author.id) = true
      · simp only [h1, if_true] at hkeep
        simpa using hkeep
      · simp only [h1] at hkeep
        by_cases h2 : (a0.id == from_author.id) = true
        · simp [h2] at hkeep
        · simpa using h2
    have hnamepres : (if (a0.id == to_author.id) = true then
        {a0 with quotes := a0.quotes ++ from_author.quotes}
      else if (a0.id == from_author.id) = true then {a0 with quotes := []} else a0).name
        = a0.name := by
      split <;> simp_all
    intro hcontra
    rw [hnamepres] at hcontra
    have : a0 = from_author := hinj ha0 hfrom (by simpa using hcontra)
    exact hid0 (by rw [this])

theorem C6_merge_moves_quotes_and_removes_source_witness :
    (({id := 1, name := "C.S.Lewis", edit := true, quotes := [{id := 10, text := "q1"}]} : MAuthor) ∈
        (SanState.mk
          [{id := 1, name := "C.S.Lewis", edit := true, quotes := [{id := 10, text := "q1"}]},
           {id := 2, name := "C. S. Lewis", edit := false, quotes := [{id := 20, text := "q2"}]}]
          (ChangeLog.mk []) (Whitelist.mk []) (Blacklist.mk [] []) [] []).authors ∧
      ({id := 2, name := "C. S. Lewis", edit := false, quotes := [{id := 20, text := "q2"}]} : MAuthor) ∈
        (SanState.mk
          [{id := 1, name := "C.S.Lewis", edit := true, quotes := [{id := 10, text := "q1"}]},
           {id := 2, name := "C. S. Lewis", edit := false, quotes := [{id := 20, text := "q2"}]}]
          (ChangeLog.mk []) (Whitelist.mk []) (Blacklist.mk [] []) [] []).authors ∧
      (1 : Int) ≠ 2 ∧
      (((SanState.mk
          [{id := 1, name := "C.S.Lewis", edit := true, quotes := [{id := 10, text := "q1"}]},
           {id := 2, name := "C. S. Lewis", edit := false, quotes := [{id := 20, text := "q2"}]}]
          (ChangeLog.mk []) (Whitelist.mk []) (Blacklist.mk [] []) [] []).authors.map
            (fun a => a.name)).Nodup) ∧
      ("C.S.Lewis" : String) ≠ "") ∧
    get_by_name
      (merge_authors
        (SanState.mk
          [{id := 1, name := "C.S.Lewis", edit := true, quotes := [{id := 10, text := "q1"}]},
           {id := 2, name := "C. S. Lewis", edit := false, quotes := [{id := 20, text := "q2"}]}]
          (ChangeLog.mk []) (Whitelist.mk []) (Blacklist.mk [] []) [] [])
        {id := 1, name := "C.S.Lewis", edit := true, quotes := [{id := 10, text := "q1"}]}
        {id := 2, name := "C. S. Lewis", edit := false, quotes := [{id := 20, text := "q2"}]}
        "2026-10-12").authors "C.S.Lewis" = .ok none :=
  ⟨⟨by decide, by decide, by decide, by decide, by decide⟩,
   (C6_merge_moves_quotes_and_removes_source
      (SanState.mk
        [{id := 1, name := "C.S.Lewis", edit := true, quotes := [{id := 10, text := "q1"}]},
         {id := 2, name := "C. S. Lewis", edit := false, quotes := [{id := 20, text := "q2"}]}]
        (ChangeLog.mk []) (Whitelist.mk []) (Blacklist.mk [] []) [] [])
      {id := 1, name := "C.S.Lewis", edit := true, quotes := [{id := 10, text := "q1"}]}
      {id := 2, name := "C. S. Lewis", edit := false, quotes := [{id := 20, text := "q2"}]}
      "2026-10-12" (by decide) (by decide) (by decide) (by decide) (by decide)).2.2⟩

/-- Claim C4 counterexample: the add-to-whitelist action (menu `[4]`) never
calls `unmark_for_edit`; on a one-author state with the edit flag set, the
author row still carries `edit := true` afterwards, contradicting the claim
that add-to-whitelist clears the needs-review flag. -/
theorem C4_whitelist_leaves_flag_counterexample :
    process_author
        (SanState.mk [{id := 1, name := "BAD.NAME", edit := true, quotes := []}]
          (ChangeLog.mk []) (Whitelist.mk []) (Blacklist.mk [] []) [] [])
        {id := 1, name := "BAD.NAME", edit := true, quotes := []}
        .add_to_whitelist false "2026-10-12" =
      .ok (SanState.mk [{id := 1, name := "BAD.NAME", edit := true, quotes := []}]
        (ChangeLog.mk []) (Whitelist.mk ["BAD.NAME"]) (Blacklist.mk [] []) [] ["BAD.NAME"]) ∧
    ({id := 1, name := "BAD.NAME", edit := true, quotes := []} : MAuthor).edit = true := by
  constructor
  · rfl
  · rfl

/-- Claim C4 (amended): in the review loop, accept-suggestion and
manual-edit renames clear the entity's edit flag, and merge, a confirmed
delete, and blacklist-with-delete remove the entity row altogether; but
add-to-whitelist, add-to-blacklist without deletion, keep-as-is and skip
leave the author rows — and hence the edit flag — untouched.  Rename
conjuncts quantify over an already-stripped new name (`hfix`), require it
non-empty (else `get_by_name` raises), different from the current name, and
collision-free; the merge conjunct instead assumes a colliding row and a
confirmed merge. -/
theorem C4_terminal_actions_and_edit_flag (st : SanState) (author : MAuthor)
    (mc : Bool) (now : String) :
    (process_author st author .keep mc now =
      .ok {st with skipped := st.skipped ++ [author.name]}) ∧
    (process_author st author .skip_author mc now =
      .ok {st with skipped := st.skipped ++ [author.name]}) ∧
    (process_author st author .add_to_whitelist mc now =
      .ok {st with
        whitelist := st.whitelist.add author.name "User approved during sanitization",
        skipped := st.skipped ++ [author.name]}) ∧
    (∀ reason : String, ∃ bl1 : Blacklist,
      process_author st author (.add_to_blacklist reason false) mc now =
        .ok {st with blacklist := bl1}) ∧
    (∀ reason : String, ∃ bl1 : Blacklist,
      process_author st author (.add_to_blacklist reason true) mc now =
        .ok {st with
          blacklist := bl1,
          authors := st.authors.filter (fun a => !(a.id == author.id)),
          changes_made := st.changes_made ++ ["DELETED: " ++ author.name]}) ∧
    (process_author st author (.delete_author true) mc now =
      .ok {st with
        authors := st.authors.filter (fun a => !(a.id == author.id)),
        changes_made := st.changes_made ++ ["DELETED: " ++ author.name],
        changelog := st.changelog.add "DELETED" author.id author.name "" none none now}) ∧
    (∀ nn : String, String.mk (stripL nn.data) = nn → (nn == "") = false →
      (nn == author.name) = false →
      st.authors.find? (fun a => a.name == nn) = none →
      process_author st author (.manual_edit nn) mc now =
        .ok {st with
          authors := st.authors.map (fun a =>
            if a.id == author.id then {a with name := nn, edit := false} else a),
          changelog := st.changelog.add "RENAMED" author.id author.name nn none none now,
          changes_made := st.changes_made ++
            ["RENAMED: '" ++ author.name ++ "' -> '" ++ nn ++ "'"]}) ∧
    ((String.mk (stripL (String.mk (suggest_format author.name.data)).data) =
        String.mk (suggest_format author.name.data)) →
      (String.mk (suggest_format author.name.data) == "") = false →
      (String.mk (suggest_format author.name.data) == author.name) = false →
      st.authors.find? (fun a => a.name == String.mk (suggest_format author.name.data)) = none →
      process_author st author .accept_suggestion mc now =
        .ok {st with
          authors := st.authors.map (fun a =>
            if a.id == author.id then
              {a with name := String.mk (suggest_format author.name.data), edit := false}
            else a),
          changelog := st.changelog.add "RENAMED" author.id author.name
            (String.mk (suggest_format author.name.data)) none none now,
          changes_made := st.changes_made ++
            ["RENAMED: '" ++ author.name ++ "' -> '" ++
              String.mk (suggest_format author.name.data) ++ "'"]}) ∧
    (∀ nn : String, ∀ e : MAuthor, String.mk (stripL nn.data) = nn → (nn == "") = false →
      (nn == author.name) = false →
      st.authors.find? (fun a => a.name == nn) = some e →
      (e.id == author.id) = false →
      ∃ st1 : SanState, process_author st author (.manual_edit nn) true now = .ok st1 ∧
        ∀ a ∈ st1.authors, a.id ≠ author.id) := by
  refine ⟨rfl, rfl, rfl, fun reason => ⟨_, rfl⟩, fun reason => ⟨_, rfl⟩, rfl, ?_, ?_, ?_⟩
  · intro nn hfix hne hdiff hfind
    rw [process_author]
    simp only [hfix, hne, Bool.not_false, if_true]
    rw [apply_change]
    simp only [hfix, hdiff, Bool.false_eq_true, if_false]
    rw [get_by_name, hne]
    simp only [Bool.false_eq_true, if_false, hfind]
  · intro hfix hne hdiff hfind
    rw [process_author]
    simp only [hdiff, Bool.not_false, if_true]
    rw [apply_change]
    simp only [hfix, hdiff, Bool.false_eq_true, if_false]
    rw [get_by_name, hne]
    simp only [Bool.false_eq_true, if_false, hfind]
  · intro nn e hfix hne hdiff hfind heid
    rw [process_author]
    simp only [hfix, hne, Bool.not_false, if_true]
    rw [apply_change]
    simp only [hfix, hdiff, Bool.false_eq_true, if_false]
    rw [get_by_name, hne]
    simp only [Bool.false_eq_true, if_false, hfind, heid, Bool.not_false, if_true]
    refine ⟨_, rfl, ?_⟩
    intro a ha
    simp only [merge_authors, List.mem_filter] at ha
    simpa using ha.2

theorem C4_terminal_actions_and_edit_flag_witness :
    (String.mk (stripL "New Name".data) = "New Name" ∧
      ("New Name" == "") = false ∧
      ("New Name" == "J.R.R.Tolkien") = false ∧
      (SanState.mk [{id := 1, name := "J.R.R.Tolkien", edit := true, quotes := []}]
        (ChangeLog.mk []) (Whitelist.mk []) (Blacklist.mk [] []) [] []).authors.find?
          (fun a => a.name == "New Name") = none) ∧
    process_author
        (SanState.mk [{id := 1, name := "J.R.R.Tolkien", edit := true, quotes := []}]
          (ChangeLog.mk []) (Whitelist.mk []) (Blacklist.mk [] []) [] [])
        {id := 1, name := "J.R.R.Tolkien", edit := true, quotes := []}
        (.manual_edit "New Name") false "2026-10-12" =
      .ok (SanState.mk [{id := 1, name := "New Name", edit := false, quotes := []}]
        (ChangeLog.mk
          [{timestamp := "2026-10-12",
            type := "RENAMED",
            author_id := 1,
            old_name := "J.R.R.Tolkien",
            new_name := "New Name",
            merged_with := none}])
        (Whitelist.mk []) (Blacklist.mk [] [])
        ["RENAMED: 'J.R.R.Tolkien' -> 'New Name'"] []) :=
  ⟨⟨by decide, by decide, by decide, by decide⟩,
   ((C4_terminal_actions_and_edit_flag
      (SanState.mk [{id := 1, name := "J.R.R.Tolkien", edit := true, quotes := []}]
        (ChangeLog.mk []) (Whitelist.mk []) (Blacklist.mk [] []) [] [])
      {id := 1, name := "J.R.R.Tolkien", edit := true, quotes := []}
      false "2026-10-12").2.2.2.2.2.2.1 "New Name"
        (by decide) (by decide) (by decide) (by decide)).trans rfl⟩

/-- The failing regular expression accepts nothing. -/
theorem matchPre_fail (cs : List Char) : matchPre RE.fail cs = false := by
  induction cs with
  | nil => rfl
  | cons c cs ih => simp [matchPre, reDeriv, reNull, ih]

/-- The empty regular expression accepts the empty prefix everywhere. -/
theorem matchPre_eps (cs : List Char) : matchPre RE.eps cs = true := by
  cases cs <;> simp [matchPre, reNull]

/-- A four-character window scan equivalent to matching
`[A-Z]\.[A-Z]\.` at the current position. -/
def hasUnspacedAbbrev : List Char → Bool
  | [] => false
  | a :: rest =>
      (match rest with
       | p :: b :: q :: _ => isUpperA a && p == '.' && isUpperA b && q == '.'
       | _ => false) || hasUnspacedAbbrev rest

/-- Prefix-matching `[A-Z]\.[A-Z]\.` inspects exactly the first four
characters. -/
theorem matchPre_abbrevNoSpace (cs : List Char) :
    matchPre reAbbrevNoSpace cs =
      (match cs with
       | a :: p :: b :: q :: _ => isUpperA a && p == '.' && isUpperA b && q == '.'
       | _ => false) := by
  rcases cs with _ | ⟨a, _ | ⟨p, _ | ⟨b, _ | ⟨q, rest⟩⟩⟩⟩
  · rfl
  · by_cases ha : isUpperA a = true <;>
      simp [reAbbrevNoSpace, chrRE, matchPre, reDeriv, reNull, mkCat, mkAlt, ha, matchPre_fail]
  · by_cases ha : isUpperA a = true <;> by_cases hp : (p == '.') = true <;>
      simp [reAbbrevNoSpace, chrRE, matchPre, reDeriv, reNull, mkCat, mkAlt, ha, hp,
        matchPre_fail]
  · by_cases ha : isUpperA a = true <;> by_cases hp : (p == '.') = true <;>
      by_cases hb : isUpperA b = true <;>
      simp [reAbbrevNoSpace, chrRE, matchPre, reDeriv, reNull, mkCat, mkAlt, ha, hp, hb,
        matchPre_fail]
  · by_cases ha : isUpperA a = true <;> by_cases hp : (p == '.') = true <;>
      by_cases hb : isUpperA b = true <;> by_cases hq : (q == '.') = true <;>
      simp [reAbbrevNoSpace, chrRE, matchPre, reDeriv, reNull, mkCat, mkAlt, ha, hp, hb, hq,
        matchPre_fail, matchPre_eps]

/-- The garbage-detector's search for `[A-Z]\.[A-Z]\.` agrees with the
window scan. -/
theorem reSearch_abbrevNoSpace (cs : List Char) :
    reSearch reAbbrevNoSpace cs = hasUnspacedAbbrev cs := by
  induction cs with
  | nil => rfl
  | cons c cs ih =>
      rw [reSearch, matchPre_abbrevNoSpace, ih]
      rcases cs with _ | ⟨p, _ | ⟨b, _ | ⟨q, rest⟩⟩⟩ <;> simp [hasUnspacedAbbrev]

/-- The first substitution of `format_abbreviations` is the identity on a
string with no unspaced abbreviation window. -/
theorem subAbbrevGo_eq_self : ∀ (n : Nat) (cs : List Char),
    hasUnspacedAbbrev cs = false → subAbbrevGo n cs = cs := by
  intro n
  induction n with
  | zero => intro cs _; rfl
  | succ n ih =>
      intro cs h
      rcases cs with _ | ⟨a, rest⟩
      · rfl
      · rcases rest with _ | ⟨p, _ | ⟨b, _ | ⟨q, rest2⟩⟩⟩
        · simp [subAbbrevGo, ih [] rfl]
        · simp [subAbbrevGo, ih [p] rfl]
        · simp [subAbbrevGo, ih [p, b] rfl]
        · have h2 : ((isUpperA a && p == '.' && isUpperA b && q == '.') ||
              hasUnspacedAbbrev (p :: b :: q :: rest2)) = false := h
          simp only [Bool.or_eq_false_iff] at h2
          simp [subAbbrevGo, h2.1, ih _ h2.2]

/-- The second substitution of `format_abbreviations` replaces each match
with itself, so it is the identity. -/
theorem subAbbrevSpaceGo_eq : ∀ (n : Nat) (cs : List Char), subAbbrevSpaceGo n cs = cs := by
  intro n
  induction n with
  | zero => intro cs; rfl
  | succ n ih =>
      intro cs
      rcases cs with _ | ⟨a, _ | ⟨p, _ | ⟨s, _ | ⟨b, _ | ⟨q, rest2⟩⟩⟩⟩⟩
      · rfl
      · simp [subAbbrevSpaceGo, ih]
      · simp [subAbbrevSpaceGo, ih]
      · simp [subAbbrevSpaceGo, ih]
      · simp [subAbbrevSpaceGo, ih]
      · by_cases hg : (isUpperA a && p == '.' && s == ' ' && isUpperA b && q == '.') = true
        · have hp : p = '.' := by
            have := hg
            simp only [Bool.and_eq_true, beq_iff_eq] at this
            exact this.1.1.1.2
          have hsp : s = ' ' := by
            have := hg
            simp only [Bool.and_eq_true, beq_iff_eq] at this
            exact this.1.1.2
          have hqd : q = '.' := by
            have := hg
            simp only [Bool.and_eq_true, beq_iff_eq] at this
            exact this.2
          subst hp hsp hqd
          simp [subAbbrevSpaceGo, hg, ih]
        · simp [subAbbrevSpaceGo, hg, ih]

/-- `format_scripture_reference` returns its input in both branches. -/
theorem format_scripture_reference_id (cs : List Char) :
    format_scripture_reference cs = cs := by
  simp [format_scripture_reference]

/-- A string leading with four quotes also leads with three. -/
theorem leadsWith_quad_triple (l : List Char)
    (h : leadsWith ['"', '"', '"', '"'] l = true) :
    leadsWith ['"', '"', '"'] l = true := by
  rcases l with _ | ⟨c1, _ | ⟨c2, _ | ⟨c3, _ | ⟨c4, r⟩⟩⟩⟩
  · simp [leadsWith] at h
  · simp [leadsWith] at h
  · simp [leadsWith] at h
  · simp [leadsWith] at h
  · simp [leadsWith] at h ⊢
    exact ⟨h.1, h.2.1, h.2.2.1⟩

/-- A string containing four consecutive quotes contains three. -/
theorem containsSub_quad_triple (cs : List Char)
    (h : containsSub ['"', '"', '"', '"'] cs = true) :
    containsSub ['"', '"', '"'] cs = true := by
  induction cs with
  | nil => simp [containsSub] at h
  | cons c cs ih =>
      rw [containsSub] at h ⊢
      rcases Bool.or_eq_true_iff.mp h with h1 | h2
      · exact Bool.or_eq_true_iff.mpr (Or.inl (leadsWith_quad_triple _ h1))
      · exact Bool.or_eq_true_iff.mpr (Or.inr (ih h2))

/-- Claim C3 counterexample: `x = "W.X.Y.Z. ab"`.  Its suggestion
`"W. X.Y. Z. ab"` contains no three-quote run (the claim's only proviso),
yet a second application differs: the `re.sub` scan resumes after each
match, so overlapping `U.U.` chains are only half-fixed per pass, and the
once-suggested string still rewrites. -/
theorem C3_suggest_format_not_idempotent_counterexample :
    containsSub ['"', '"', '"'] (suggest_format "W.X.Y.Z. ab".data) = false ∧
    suggest_format (suggest_format "W.X.Y.Z. ab".data) ≠
      suggest_format "W.X.Y.Z. ab".data := by
  decide

/-- Claim C3 (amended): `suggest_format (suggest_format x) = suggest_format x`
for every `x` whose once-suggested form contains no three-quote run (the
claim's proviso) and, additionally, contains no unspaced-abbreviation
window `U.U.`, carries no leading or trailing whitespace, and does not
trigger the title branch on the second pass.  Each additional proviso is
forced by an input family on which the stated claim fails
(`"W.X.Y.Z. ab"`, `"   (ABCd)"`, `"aB.C. DE fg"` — see the examples after
`suggest_format`). -/
theorem C3_suggest_format_idempotent_amended (x : List Char)
    (hq : containsSub ['"', '"', '"'] (suggest_format x) = false)
    (hu : reSearch reAbbrevNoSpace (suggest_format x) = false)
    (hs : stripL (suggest_format x) = suggest_format x)
    (ht : (is_title_heuristic (suggest_format x) &&
      !(matchPre reAbbrevLead (suggest_format x))) = false) :
    suggest_format (suggest_format x) = suggest_format x := by
  have hq4 : containsSub ['"', '"', '"', '"'] (suggest_format x) = false := by
    by_cases h : containsSub ['"', '"', '"', '"'] (suggest_format x) = true
    · rw [containsSub_quad_triple _ h] at hq
      exact absurd hq (by simp)
    · simpa using h
  have hUU : hasUnspacedAbbrev (suggest_format x) = false := by
    rw [← reSearch_abbrevNoSpace]
    exact hu
  set y := suggest_format x with hy
  unfold suggest_format
  simp only [hq, hq4, Bool.or_self, Bool.false_eq_true, if_false, ht]
  by_cases hscript : matchPre reDigitsSpaceUpper y = true
  · simp only [hscript, if_true, format_scripture_reference_id]
  · simp only [hscript, Bool.false_eq_true, if_false]
    unfold format_abbreviations
    simp only [subAbbrevGo_eq_self _ _ hUU, subAbbrevSpaceGo_eq]
    exact hs

theorem C3_suggest_format_idempotent_amended_witness :
    (containsSub ['"', '"', '"'] (suggest_format "C. S. Lewis".data) = false ∧
      reSearch reAbbrevNoSpace (suggest_format "C. S. Lewis".data) = false ∧
      stripL (suggest_format "C. S. Lewis".data) = suggest_format "C. S. Lewis".data ∧
      (is_title_heuristic (suggest_format "C. S. Lewis".data) &&
        !(matchPre reAbbrevLead (suggest_format "C. S. Lewis".data))) = false) ∧
    suggest_format (suggest_format "C. S. Lewis".data) = suggest_format "C. S. Lewis".data :=
  ⟨⟨by decide, by decide, by decide, by decide⟩,
   C3_suggest_format_idempotent_amended "C. S. Lewis".data
     (by decide) (by decide) (by decide) (by decide)⟩

/-- Claim C9: there is an input with a three-quote run — here
`ab """x"y""" cd`, whose lazily captured content `x"y` itself contains a
quote — for which `suggest_format`'s result, `ab cd (x"y)`, still contains
a quote character: the extraction rewrite reattaches the captured content
verbatim instead of stripping quotes from it. -/
theorem C9_quote_cleanup_not_quote_free :
    containsSub ['"', '"', '"'] "ab \"\"\"x\"y\"\"\" cd".data = true ∧
    suggest_format "ab \"\"\"x\"y\"\"\" cd".data = "ab cd (x\"y)".data ∧
    (suggest_format "ab \"\"\"x\"y\"\"\" cd".data).contains '"' = true := by
  decide

/-- Conversion through `Char.ofNat` of a valid scalar value keeps the
value. -/
theorem toNat_ofNat_valid (n : Nat) (h : n.isValidChar) : (Char.ofNat n).toNat = n := by
  simp [Char.ofNat, h]
  rfl

/-- Lowercasing never produces an uppercase ASCII letter. -/
theorem isUpperA_pyLowerC (c : Char) : isUpperA (pyLowerC c) = false := by
  unfold pyLowerC
  by_cases h : isUpperA c = true
  · simp only [h, if_true]
    unfold isUpperA at *
    simp only [Bool.and_eq_true, decide_eq_true_eq] at h
    have hv : (c.toNat + 32).isValidChar := by
      left
      omega
    rw [toNat_ofNat_valid _ hv]
    simp only [Bool.and_eq_false_iff, decide_eq_false_iff_not]
    omega
  · simp only [Bool.not_eq_true] at h
    simp [h]

/-- Membership in the indexed map comes from some word of the list. -/
theorem mem_mapWithIdx {f : Nat → List Char → List Char} :
    ∀ {i : Nat} {ws : List (List Char)} {w : List Char},
      w ∈ mapWithIdx f i ws → ∃ j w0, w0 ∈ ws ∧ w = f j w0 := by
  intro i ws
  induction ws generalizing i with
  | nil => intro w hw; simp [mapWithIdx] at hw
  | cons v vs ih =>
      intro w hw
      rw [mapWithIdx] at hw
      rcases List.mem_cons.mp hw with h | h
      · exact ⟨i, v, List.mem_cons_self v vs, h⟩
      · obtain ⟨j, w0, hmem, heq⟩ := ih h
        exact ⟨j, w0, List.mem_cons_of_mem v hmem, heq⟩

/-- Every character after the first of a transformed title word is
non-uppercase: `capitalize` lowercases the tail and the connector branch
lowercases everything. -/
theorem transformWord_tail_lower (i : Nat) (w : List Char) :
    ∀ c ∈ (transformWord i w).drop 1, isUpperA c = false := by
  intro c hc
  unfold transformWord at hc
  split at hc
  · rcases w with _ | ⟨c0, rest⟩
    · simp [pyCapitalize] at hc
    · simp only [pyCapitalize, List.drop_succ_cons, List.drop_zero] at hc
      obtain ⟨c1, _, rfl⟩ := List.mem_map.mp hc
      exact isUpperA_pyLowerC c1
  · have hc2 : c ∈ pyLowerStr w := List.drop_subset _ _ hc
    obtain ⟨c1, _, rfl⟩ := List.mem_map.mp hc2
    exact isUpperA_pyLowerC c1

/-- Claim C10 counterexample: `THE BOOK (NIV)` is a fully uppercase
multi-word name that triggers the title heuristic, but the output
`The Book (NIV)` keeps the trailing parenthetical verbatim, so the word
`(NIV)` retains uppercase after its first character — the claim's "every
word of suggest_format's output" is too strong. -/
theorem C10_title_case_counterexample :
    is_title_heuristic "THE BOOK (NIV)".data = true ∧
    matchPre reAbbrevLead "THE BOOK (NIV)".data = false ∧
    suggest_format "THE BOOK (NIV)".data = "The Book (NIV)".data ∧
    ((pysplit (suggest_format "THE BOOK (NIV)".data)).all
      (fun w => (w.drop 1).all (fun c => !(isUpperA c)))) = false := by
  decide

/-- Claim C10 (amended): for every name that triggers the title heuristic
(and is not quote-garbage, not a scripture reference, and has no
capital-period-space prefix), `suggest_format` returns
`format_title_case`, and every word of the title-cased portion — the words
produced by `transformWord` from the part before the detached trailing
parenthetical, which is reattached verbatim — has at most its first
character uppercase; interior uppercase (`NIV`, `McDonald`) outside a
parenthetical is destroyed. -/
theorem C10_title_casing_lowers_word_tails (x : List Char)
    (hq : (containsSub ['"', '"', '"'] x || containsSub ['"', '"', '"', '"'] x) = false)
    (hd : matchPre reDigitsSpaceUpper x = false)
    (ht : is_title_heuristic x = true)
    (ha : matchPre reAbbrevLead x = false) :
    suggest_format x = format_title_case x ∧
    ∀ w ∈ mapWithIdx transformWord 0 (pysplit (match parenMatch x with
        | some (g1, _) => stripL g1
        | none => x)),
      ∀ c ∈ w.drop 1, isUpperA c = false := by
  constructor
  · unfold suggest_format
    simp [hq, hd, ht, ha]
  · intro w hw c hc
    obtain ⟨j, w0, _, rfl⟩ := mem_mapWithIdx hw
    exact transformWord_tail_lower j w0 c hc

theorem C10_title_casing_lowers_word_tails_witness :
    ((containsSub ['"', '"', '"'] "THE NIV BIBLE".data ||
        containsSub ['"', '"', '"', '"'] "THE NIV BIBLE".data) = false ∧
      matchPre reDigitsSpaceUpper "THE NIV BIBLE".data = false ∧
      is_title_heuristic "THE NIV BIBLE".data = true ∧
      matchPre reAbbrevLead "THE NIV BIBLE".data = false) ∧
    suggest_format "THE NIV BIBLE".data = format_title_case "THE NIV BIBLE".data :=
  ⟨⟨by decide, by decide, by decide, by decide⟩,
   (C10_title_casing_lowers_word_tails "THE NIV BIBLE".data
     (by decide) (by decide) (by decide) (by decide)).1⟩
